import Mathlib

/-!
# Verification of the `verifi` certificate-store core

Shallow embedding of `internal/certstore` (store.go, metadata.go, bundle.go,
validate.go).  Byte strings are modelled at the granularity of PEM items
(`PemItem`): a PEM block with its type and DER payload, or a single junk
byte.  This is exactly the granularity at which `pem.Decode`, concatenation
and the store's algorithms observe the data; concatenation of files is list
append, so byte-preservation statements are faithful.

External pure functions (`sha256` hashing via `fetcher.ComputeSHA256`,
`x509.ParseCertificate`, `fetcher.CountCertificates`'s inner parse) are
abstracted as parameters; the store code treats them as black boxes.
-/

namespace Verifi

/-- One atom of a byte string, at PEM granularity: either a full PEM block
(`-----BEGIN ty----- ... -----END ty-----` with DER payload `der`), or a
junk byte not belonging to any block. -/
inductive PemItem where
  | block (ty : String) (der : List Nat)
  | junk (b : Nat)
deriving DecidableEq, Repr

/-- A byte string, viewed as its sequence of PEM items. -/
abbrev Bytes := List PemItem

/-- Model of `pem.Decode`: returns the first PEM block in the data (skipping any
junk before it) together with the rest of the data after that block, or
`none` when no block is present. -/
def pemDecode : Bytes → Option ((String × List Nat) × Bytes)
  | [] => none
  | .block ty der :: rest => some ((ty, der), rest)
  | .junk _ :: rest => pemDecode rest

/-- The first PEM block of a byte string, if any (type and DER payload). -/
def pemFirstBlock (data : Bytes) : Option (String × List Nat) :=
  (pemDecode data).map Prod.fst

/-- Number of PEM blocks (of any type) in a byte string. -/
def pemNumBlocks : Bytes → Nat
  | [] => 0
  | .block _ _ :: rest => pemNumBlocks rest + 1
  | .junk _ :: rest => pemNumBlocks rest

/-- An `x509.Certificate` as the store observes it: its raw DER bytes
(`cert.Raw`), its `NotAfter` instant and its subject string. -/
structure Cert where
  raw : List Nat
  notAfter : Nat
  subject : String
deriving DecidableEq, Repr

/-- The error taxonomy of `internal/errors` plus the ad-hoc errors the
store wraps in `VerifiError`.  `wrap op e` models re-wrapping an error
with an operation label (as in "rebuild bundle after adding certificate"). -/
inductive VErr where
  | storeAlreadyInit
  | storeNotInit
  | invalidName
  | invalidPEM
  | invalidBlockType
  | invalidX509
  | certExpired
  | certNotFound
  | lockTimeout
  | cancelled
  | ioError (op : String)
  | wrap (op : String) (e : VErr)
deriving DecidableEq, Repr

/-- The `CertMetadata` extracted by `ValidateCert`. -/
structure CertMetadata where
  subject : String
  fingerprint : String
  expires : Nat
deriving DecidableEq, Repr

/-- Model of `ValidateCert` (validate.go): decode the first PEM block, require type
`CERTIFICATE`, parse the DER as X.509 (`parse` abstracts
`x509.ParseCertificate`), reject expired certificates unless `force`, and
extract subject / `sha256:`-prefixed fingerprint (`sha` abstracts hex-encoded
SHA-256) / expiry. -/
def ValidateCert (parse : List Nat → Option Cert) (sha : List Nat → String)
    (now : Nat) (data : Bytes) (force : Bool) :
    Except VErr (Cert × CertMetadata) :=
  match pemDecode data with
  | none => .error .invalidPEM
  | some ((ty, der), _rest) =>
    if ty ≠ "CERTIFICATE" then .error .invalidBlockType
    else
      match parse der with
      | none => .error .invalidX509
      | some cert =>
        if !force ∧ now > cert.notAfter then .error .certExpired
        else .ok (cert, { subject := cert.subject,
                          fingerprint := "sha256:" ++ sha cert.raw,
                          expires := cert.notAfter })

/-- The `BundleInfo` record (metadata.go). `generated` is an abstract instant. -/
structure BundleInfo where
  generated : Nat
  sha256 : String
  certCount : Nat
  sources : List String
  version : String
  source : String
deriving DecidableEq, Repr

/-- The zero `BundleInfo` (Go zero value). -/
def BundleInfo.empty : BundleInfo :=
  { generated := 0, sha256 := "", certCount := 0, sources := [],
    version := "", source := "" }

/-- The `UserCertInfo` record (metadata.go). -/
structure UserCertInfo where
  name : String
  path : String
  added : Nat
  fingerprint : String
  subject : String
  expires : Nat
deriving DecidableEq, Repr

/-- The `Metadata` record (metadata.go). -/
structure Metadata where
  version : String
  combinedBundle : BundleInfo
  mozillaBundle : BundleInfo
  userCerts : List UserCertInfo
deriving DecidableEq, Repr

/-- The `currentSchemaVersion` constant. -/
def currentSchemaVersion : String := "1"

/-- Model of `NewMetadata`. -/
def NewMetadata : Metadata :=
  { version := currentSchemaVersion, combinedBundle := BundleInfo.empty,
    mozillaBundle := BundleInfo.empty, userCerts := [] }

/-- Model of `migrateMetadata`: currently only normalises the version tag. -/
def migrateMetadata (m : Metadata) : Metadata :=
  { m with version := currentSchemaVersion }

/-- A directory entry under `certs/user/`: a regular file with its
content, or a subdirectory. -/
inductive DirEntry where
  | file (name : String) (data : Bytes)
  | subdir (name : String)
deriving DecidableEq, Repr

/-- The on-disk state of one store root, plus the metadata lock.
`metadataFile` is the parsed content of `certs/metadata.json` (absent when
the store is uninitialized); `mozillaFile` / `combinedFile` are the two
bundle files; `userDir` is the listing of `certs/user/` in directory-listing
order; `lockHeld` says whether some other holder currently owns
`metadata.json.lock`; `metaWriteFails` injects a failure into the
write-temp-then-rename step of `writeMetadata`. -/
structure St where
  metadataFile : Option Metadata
  mozillaFile : Option Bytes
  combinedFile : Option Bytes
  userDir : List DirEntry
  lockHeld : Bool
  metaWriteFails : Bool
deriving DecidableEq, Repr

/-- Model of `FileLock.Lock` via `TryLockContext`: fails when the context is
cancelled; times out when the lock is already held. -/
def lockAcquire (cancelled : Bool) (s : St) : Except VErr St :=
  if cancelled then .error .cancelled
  else if s.lockHeld then .error .lockTimeout
  else .ok { s with lockHeld := true }

/-- Model of `FileLock.Unlock`. -/
def lockRelease (s : St) : St := { s with lockHeld := false }

/-- Model of `readMetadata` (metadata.go): read and parse `metadata.json`, applying
`migrateMetadata` when the schema version differs from the current one. -/
def readMetadata (s : St) : Except VErr Metadata :=
  match s.metadataFile with
  | none => .error (.ioError "read metadata")
  | some m =>
    if m.version ≠ currentSchemaVersion then .ok (migrateMetadata m)
    else .ok m

/-- Model of `writeMetadata` (metadata.go): serialize and atomically replace
`metadata.json`; the injected flag models a failing write/rename. -/
def writeMetadata (s : St) (m : Metadata) : Except VErr St :=
  if s.metaWriteFails then .error (.ioError "write metadata")
  else .ok { s with metadataFile := some m }

/-- Model of `IsInitialized`: `Stat` on the metadata path succeeds. -/
def IsInitialized (s : St) : Bool := s.metadataFile.isSome

/-- A metadata mutator as `UpdateMetadata` receives it: it sees the loaded
record and (like `RebuildBundle`) may also touch the filesystem, returning
the possibly-changed state alongside its result. -/
abbrev Mutator := Metadata → St → Except VErr Metadata × St

/-- Model of `UpdateMetadata` (metadata.go): acquire the file lock, `readMetadata`,
apply the mutator, `writeMetadata` on mutator success, and release the lock
on every exit path (the `defer`). -/
def UpdateMetadata (cancelled : Bool) (fn : Mutator) (s : St) :
    Except VErr Unit × St :=
  match lockAcquire cancelled s with
  | .error e => (.error e, s)
  | .ok sL =>
    match readMetadata sL with
    | .error e => (.error e, lockRelease sL)
    | .ok m =>
      match fn m sL with
      | (.error e, s') => (.error e, lockRelease s')
      | (.ok m', s') =>
        match writeMetadata s' m' with
        | .error e => (.error e, lockRelease s')
        | .ok s'' => (.ok (), lockRelease s'')

/-- Whether `pat` occurs at the start of `l`. -/
def startsWithChars : List Char → List Char → Bool
  | [], _ => true
  | _ :: _, [] => false
  | p :: ps, c :: cs => p = c && startsWithChars ps cs

/-- Whether `pat` occurs anywhere in `l` (`strings.Contains`). -/
def containsChars (pat : List Char) : List Char → Bool
  | [] => pat.isEmpty
  | c :: cs => startsWithChars pat (c :: cs) || containsChars pat cs

/-- Model of `strings.Contains(s, pat)`. -/
def strContains (s pat : String) : Bool := containsChars pat.toList s.toList

/-- The name check in `AddCert`: `strings.Contains(name, "/") ||
strings.Contains(name, "\\") || strings.Contains(name, "..")`. -/
def badName (name : String) : Bool :=
  strContains name "/" || strContains name "\\" || strContains name ".."

/-- Model of `strings.HasSuffix(s, post)`, evaluated over character lists. -/
def strEndsWith (s post : String) : Bool :=
  startsWithChars post.toList.reverse s.toList.reverse

/-- Model of `readUserCerts` (bundle.go): list `certs/user/`, skip directories and
entries whose name does not end in `.pem`, and read each remaining file,
in directory-listing order.  Fails immediately on a cancelled context. -/
def readUserCerts (cancelled : Bool) (s : St) : Except VErr (List Bytes) :=
  if cancelled then .error .cancelled
  else .ok (s.userDir.filterMap fun e =>
    match e with
    | .file n d => if strEndsWith n ".pem" then some d else none
    | .subdir _ => none)

/-- The `.pem` file contents under `certs/user/` in directory-listing
order (what a non-cancelled `readUserCerts` returns). -/
def pemFileData (s : St) : List Bytes :=
  s.userDir.filterMap fun e =>
    match e with
    | .file n d => if strEndsWith n ".pem" then some d else none
    | .subdir _ => none

/-- Model of `RebuildBundle` (store.go): check the context, read the Mozilla
bundle, append every user `.pem` file's raw bytes in directory-listing
order, atomically replace `combined-bundle.pem`, and recompute the
`combined_bundle` metadata block (digest and count over the final bytes,
sources `["mozilla"]` plus `"user"` when any user cert file was read). -/
def RebuildBundle (cancelled : Bool) (sha : Bytes → String)
    (countCerts : Bytes → Nat) (now : Nat) : Mutator := fun m s =>
  if cancelled then (.error .cancelled, s)
  else
    match s.mozillaFile with
    | none => (.error (.ioError "read mozilla bundle"), s)
    | some mozillaData =>
      match readUserCerts cancelled s with
      | .error e => (.error e, s)
      | .ok userCerts =>
        let combined := mozillaData ++ userCerts.flatten
        let s' := { s with combinedFile := some combined }
        let sources := if userCerts.length > 0 then ["mozilla", "user"]
                       else ["mozilla"]
        (.ok { m with combinedBundle :=
                { generated := now, sha256 := sha combined,
                  certCount := countCerts combined, sources := sources,
                  version := "", source := "" } }, s')

/-- Model of `Init` (store.go): refuse when already initialized unless `force`;
check the context; create the directory layout (a no-op on the modelled
state); write the embedded Mozilla bundle; build the initial metadata
record; run the initial `RebuildBundle`; persist the record. -/
def Init (cancelled force : Bool) (sha : Bytes → String)
    (countCerts : Bytes → Nat) (now : Nat) (embeddedBundle : Bytes)
    (s : St) : Except VErr Unit × St :=
  if !force ∧ s.metadataFile.isSome then (.error .storeAlreadyInit, s)
  else if cancelled then (.error .cancelled, s)
  else
    let s1 := { s with mozillaFile := some embeddedBundle }
    let certCount := countCerts embeddedBundle
    let m0 := { NewMetadata with mozillaBundle :=
                  { generated := now, sha256 := sha embeddedBundle,
                    certCount := certCount, sources := [], version := "",
                    source := "embedded" } }
    match RebuildBundle cancelled sha countCerts now m0 s1 with
    | (.error e, s2) => (.error e, s2)
    | (.ok m1, s2) =>
      match writeMetadata s2 m1 with
      | .error e => (.error e, s2)
      | .ok s3 => (.ok (), s3)

/-- The by-name upsert in `AddCert`'s first metadata mutator: replace the
first entry with the given name in place, or append a new entry. -/
def upsertCert (name : String) (info : UserCertInfo) :
    List UserCertInfo → List UserCertInfo
  | [] => [info]
  | c :: cs => if c.name = name then info :: cs else c :: upsertCert name info cs

/-- Writing `certs/user/<n>` (via temp file + atomic rename): replace the
file entry of that name in place, or create a new directory entry. -/
def writeUserFile (n : String) (d : Bytes) : List DirEntry → List DirEntry
  | [] => [.file n d]
  | e :: es =>
    match e with
    | .file n' _ => if n' = n then .file n d :: es
                    else e :: writeUserFile n d es
    | .subdir _ => e :: writeUserFile n d es

/-- Model of `fs.Remove` of `certs/user/<n>` (best-effort: removing an absent file
is a no-op here, mirroring the ignored error). -/
def removeUserFile (n : String) : List DirEntry → List DirEntry
  | [] => []
  | e :: es =>
    match e with
    | .file n' d => if n' = n then removeUserFile n es
                    else .file n' d :: removeUserFile n es
    | .subdir n' => .subdir n' :: removeUserFile n es

/-- Model of `AddCert` (store.go): initialization check; name validation; context
check; read the certificate file (its content is `certData?`, `none`
modelling a read failure); `ValidateCert`; second context check; write
`user/<name>.pem` atomically; locked by-name upsert of the catalog entry,
rolling back the file write if the update fails; second locked update
running `RebuildBundle`, whose failure is re-wrapped. -/
def AddCert (cancelled : Bool) (parse : List Nat → Option Cert)
    (shaDer : List Nat → String) (sha : Bytes → String)
    (countCerts : Bytes → Nat) (now : Nat)
    (certData? : Option Bytes) (name : String) (force : Bool) (s : St) :
    Except VErr Unit × St :=
  if !(IsInitialized s) then (.error .storeNotInit, s)
  else if badName name then (.error .invalidName, s)
  else if cancelled then (.error .cancelled, s)
  else
    match certData? with
    | none => (.error (.ioError "read certificate"), s)
    | some certData =>
      match ValidateCert parse shaDer now certData force with
      | .error e => (.error e, s)
      | .ok (_, cm) =>
        -- second context check: `cancelled` is already known false here
        let fileName := name ++ ".pem"
        let s1 := { s with userDir := writeUserFile fileName certData s.userDir }
        let entry : UserCertInfo :=
          { name := name, path := "user/" ++ name ++ ".pem", added := now,
            fingerprint := cm.fingerprint, subject := cm.subject,
            expires := cm.expires }
        let upd := UpdateMetadata cancelled
          (fun md st => (.ok { md with userCerts := upsertCert name entry md.userCerts }, st)) s1
        match upd with
        | (.error e, s2) =>
          (.error e, { s2 with userDir := removeUserFile fileName s2.userDir })
        | (.ok _, s2) =>
          match UpdateMetadata cancelled (RebuildBundle cancelled sha countCerts now) s2 with
          | (.error e, s3) =>
            (.error (.wrap "rebuild bundle after adding certificate" e), s3)
          | (.ok _, s3) => (.ok (), s3)

/-- Model of `RemoveCert` (store.go): initialization check; context check; locked
update removing the named catalog entry (`NotFound` when absent);
best-effort removal of the physical file; second locked update running
`RebuildBundle`, whose failure is re-wrapped. -/
def RemoveCert (cancelled : Bool) (sha : Bytes → String)
    (countCerts : Bytes → Nat) (now : Nat) (name : String) (s : St) :
    Except VErr Unit × St :=
  if !(IsInitialized s) then (.error .storeNotInit, s)
  else if cancelled then (.error .cancelled, s)
  else
    let upd := UpdateMetadata cancelled
      (fun md st =>
        if md.userCerts.any (fun c => c.name = name) then
          (.ok { md with userCerts := md.userCerts.filter fun c => decide (c.name ≠ name) }, st)
        else (.error .certNotFound, st)) s
    match upd with
    | (.error e, s2) => (.error e, s2)
    | (.ok _, s2) =>
      let s2' := { s2 with userDir := removeUserFile (name ++ ".pem") s2.userDir }
      match UpdateMetadata cancelled (RebuildBundle cancelled sha countCerts now) s2' with
      | (.error e, s3) =>
        (.error (.wrap "rebuild bundle after removing certificate" e), s3)
      | (.ok _, s3) => (.ok (), s3)

/-- Whether `certs/user/` contains a regular file named `n`. -/
def hasUserFile (n : String) (l : List DirEntry) : Bool :=
  l.any fun e =>
    match e with
    | .file n' _ => n' = n
    | .subdir _ => false

/-- An increment-style mutator, as in the spec's concurrency test: bump a
counter field (here `combined_bundle.cert_count`) by one. -/
def incCounter : Mutator := fun m st =>
  (.ok { m with combinedBundle :=
          { m.combinedBundle with certCount := m.combinedBundle.certCount + 1 } }, st)

/-- N `UpdateMetadata` calls as serialized by the metadata file lock: each
call's acquire-load-mutate-save-release is atomic under the lock, so a
concurrent execution is the sequential composition of the calls in
lock-acquisition order.  `fns` lists the callers' mutators in that order. -/
def runSerial (fns : List Mutator) (s : St) : St :=
  fns.foldl (fun st fn => (UpdateMetadata false fn st).2) s

/-! ### Concrete test environment

Concrete instantiations of the abstracted external functions and small
concrete states, used by the counterexamples and witnesses below. -/

/-- A concrete stand-in for `x509.ParseCertificate`: every DER payload
parses, with `NotAfter = 100`. -/
def exParse : List Nat → Option Cert := fun der => some ⟨der, 100, "CN=T"⟩

/-- A concrete stand-in for `x509.ParseCertificate` that rejects the DER
payload `[9]`. -/
def exParseRej : List Nat → Option Cert := fun der =>
  if der = [9] then none else some ⟨der, 100, "CN=T"⟩

/-- A concrete stand-in for SHA-256 over file bytes. -/
def exSha : Bytes → String := fun b => toString b.length

/-- A concrete stand-in for SHA-256 over DER bytes. -/
def exShaD : List Nat → String := fun b => toString b.length

/-- A concrete stand-in for `fetcher.CountCertificates`. -/
def exCount : Bytes → Nat := fun b => b.length

/-- A one-certificate PEM file (the "old" certificate). -/
def exCertOld : Bytes := [.block "CERTIFICATE" [1]]

/-- A one-certificate PEM file (the "new" certificate). -/
def exCertNew : Bytes := [.block "CERTIFICATE" [2]]

/-- An initialized store state: fresh metadata, empty bundles, one user
certificate file `corp.pem`, lock currently held by another process. -/
def exStLocked : St :=
  { metadataFile := some NewMetadata, mozillaFile := some [],
    combinedFile := some [], userDir := [.file "corp.pem" exCertOld],
    lockHeld := true, metaWriteFails := false }

/-- An initialized store state with an orphan `.pem` file in `certs/user/`
(present on disk, catalogued by no metadata entry) and a free lock. -/
def exStOrphan : St :=
  { metadataFile := some NewMetadata, mozillaFile := some [],
    combinedFile := some [], userDir := [.file "orphan.pem" exCertOld],
    lockHeld := false, metaWriteFails := false }

/-- An initialized store state with a free lock, an empty user directory
apart from a subdirectory and a non-`.pem` file, and one `.pem` file. -/
def exStMixed : St :=
  { metadataFile := some NewMetadata, mozillaFile := some [.junk 7],
    combinedFile := some [], lockHeld := false, metaWriteFails := false,
    userDir := [.subdir "nested", .file "notes.txt" [.junk 1],
                .file "corp.pem" exCertOld] }

/-- A two-block input: two CERTIFICATE blocks concatenated. -/
def exTwoBlocks : Bytes := [.block "CERTIFICATE" [1], .block "CERTIFICATE" [2]]

/-! ### Run lemmas for the core operations -/

theorem readUserCerts_run (s : St) : readUserCerts false s = .ok (pemFileData s) := rfl

theorem pemFileData_set_combined (s : St) (b : Bytes) :
    pemFileData { s with combinedFile := some b } = pemFileData s := rfl

theorem RebuildBundle_run (sha : Bytes → String) (countCerts : Bytes → Nat)
    (now : Nat) (m : Metadata) (s : St) (moz : Bytes)
    (hmoz : s.mozillaFile = some moz) :
    RebuildBundle false sha countCerts now m s =
      (.ok { m with combinedBundle :=
               { generated := now,
                 sha256 := sha (moz ++ (pemFileData s).flatten),
                 certCount := countCerts (moz ++ (pemFileData s).flatten),
                 sources := if (pemFileData s).length > 0 then ["mozilla", "user"]
                            else ["mozilla"],
                 version := "", source := "" } },
       { s with combinedFile := some (moz ++ (pemFileData s).flatten) }) := by
  simp only [RebuildBundle, Bool.false_eq_true, if_false, hmoz, readUserCerts_run,
    pemFileData]

/-! ### C3 — rebuildBundle output bytes and digest -/

/-- C3: a successful `RebuildBundle` writes exactly the base (Mozilla)
bundle's bytes followed by the raw bytes of each `.pem` file under
`certs/user/` in directory-listing order (directories and non-`.pem`
entries skipped, no re-ordering / re-encoding / de-duplication), and
records in `combined_bundle` a digest computed over exactly those final
concatenated bytes. -/
theorem claim_C3_rebuild_concatenates (sha : Bytes → String)
    (countCerts : Bytes → Nat) (now : Nat) (m : Metadata) (s : St)
    (moz : Bytes) (hmoz : s.mozillaFile = some moz) :
    ∃ m', RebuildBundle false sha countCerts now m s =
        (.ok m', { s with combinedFile := some (moz ++ (pemFileData s).flatten) })
      ∧ m'.combinedBundle.sha256 = sha (moz ++ (pemFileData s).flatten) :=
  ⟨_, RebuildBundle_run sha countCerts now m s moz hmoz, rfl⟩

/-- C3 witness: on a user directory holding a subdirectory, a `.txt` file
and one `.pem` file, the combined bundle is the Mozilla bytes followed by
just the `.pem` file's bytes. -/
theorem claim_C3_rebuild_concatenates_witness :
    pemFileData exStMixed = [exCertOld]
    ∧ ∃ m', RebuildBundle false exSha exCount 5 NewMetadata exStMixed =
        (.ok m', { exStMixed with
                    combinedFile := some ([.junk 7] ++ (pemFileData exStMixed).flatten) })
      ∧ m'.combinedBundle.sha256 = exSha ([.junk 7] ++ (pemFileData exStMixed).flatten) :=
  ⟨by decide, claim_C3_rebuild_concatenates exSha exCount 5 NewMetadata exStMixed [.junk 7] rfl⟩

/-! ### C5 — rebuildBundle idempotence -/

/-- C5: running `RebuildBundle` twice in a row with no intervening
mutation of the base bundle, the user directory or the metadata yields a
byte-identical combined bundle and an unchanged recorded digest. -/
theorem claim_C5_rebuild_idempotent (sha : Bytes → String)
    (countCerts : Bytes → Nat) (now₁ now₂ : Nat) (m : Metadata) (s : St)
    (moz : Bytes) (hmoz : s.mozillaFile = some moz) :
    ∃ m₁ s₁ m₂ s₂,
      RebuildBundle false sha countCerts now₁ m s = (.ok m₁, s₁)
      ∧ RebuildBundle false sha countCerts now₂ m₁ s₁ = (.ok m₂, s₂)
      ∧ s₂.combinedFile = s₁.combinedFile
      ∧ m₂.combinedBundle.sha256 = m₁.combinedBundle.sha256 := by
  exact ⟨_, _, _, _, RebuildBundle_run sha countCerts now₁ m s moz hmoz,
    RebuildBundle_run sha countCerts now₂ _ _ moz hmoz, rfl, rfl⟩

/-- C5 witness: two consecutive rebuilds on a concrete store state. -/
theorem claim_C5_rebuild_idempotent_witness :
    ∃ m₁ s₁ m₂ s₂,
      RebuildBundle false exSha exCount 1 NewMetadata exStMixed = (.ok m₁, s₁)
      ∧ RebuildBundle false exSha exCount 2 m₁ s₁ = (.ok m₂, s₂)
      ∧ s₂.combinedFile = s₁.combinedFile
      ∧ m₂.combinedBundle.sha256 = m₁.combinedBundle.sha256 :=
  claim_C5_rebuild_idempotent exSha exCount 1 2 NewMetadata exStMixed [.junk 7] rfl

/-! ### C4 — sources invariant (corrected) -/

/-- C4 counterexample: a successful operation after which
`combined_bundle.sources` contains `"user"` while `user_certificates` is
empty.  `Init` with `force = true` on an already-initialized store whose
`certs/user/` holds a `.pem` file succeeds, resets the catalog to `[]`,
yet the rebuild reads the surviving file and tags the bundle with
`"user"`. -/
theorem claim_C4_sources_cex :
    (Init false true exSha exCount 7 [] exStOrphan).1 = .ok ()
    ∧ ((Init false true exSha exCount 7 [] exStOrphan).2.metadataFile.map
        (fun md => (md.combinedBundle.sources, md.userCerts)))
      = some (["mozilla", "user"], []) :=
  ⟨rfl, by decide⟩

/-- C4 (amended): after a successful `RebuildBundle`, `sources` always
contains `"mozilla"`, and contains `"user"` iff at least one `.pem` file
was present under `certs/user/` at rebuild time; when the on-disk `.pem`
files agree with the `user_certificates` catalog (no orphans, no missing
files — in particular after removing the last user certificate together
with its file), this coincides with the catalog being non-empty. -/
theorem claim_C4_sources_invariant (sha : Bytes → String)
    (countCerts : Bytes → Nat) (now : Nat) (m : Metadata) (s : St)
    (moz : Bytes) (hmoz : s.mozillaFile = some moz) :
    ∃ m', (RebuildBundle false sha countCerts now m s).1 = .ok m'
      ∧ m'.userCerts = m.userCerts
      ∧ "mozilla" ∈ m'.combinedBundle.sources
      ∧ ("user" ∈ m'.combinedBundle.sources ↔ pemFileData s ≠ [])
      ∧ ((pemFileData s = [] ↔ m.userCerts = []) →
          ("user" ∈ m'.combinedBundle.sources ↔ m'.userCerts ≠ [])) := by
  rw [RebuildBundle_run sha countCerts now m s moz hmoz]
  refine ⟨_, rfl, rfl, ?_, ?_, ?_⟩
  · cases hp : pemFileData s <;> simp
  · cases hp : pemFileData s <;> simp
  · intro hagree
    cases hp : pemFileData s <;> rw [hp] at hagree <;> simp_all

/-- C4 witness: with one `.pem` file on disk and one catalog entry, the
rebuilt sources contain both `"mozilla"` and `"user"`. -/
theorem claim_C4_sources_invariant_witness :
    pemFileData exStMixed = [exCertOld]
    ∧ ∃ m', (RebuildBundle false exSha exCount 3 NewMetadata exStMixed).1 = .ok m'
        ∧ m'.userCerts = NewMetadata.userCerts
        ∧ "mozilla" ∈ m'.combinedBundle.sources
        ∧ ("user" ∈ m'.combinedBundle.sources ↔ pemFileData exStMixed ≠ [])
        ∧ ((pemFileData exStMixed = [] ↔ NewMetadata.userCerts = []) →
            ("user" ∈ m'.combinedBundle.sources ↔ m'.userCerts ≠ [])) :=
  ⟨by decide,
   claim_C4_sources_invariant exSha exCount 3 NewMetadata exStMixed [.junk 7] rfl⟩

/-! ### C6 — validator format checks (corrected) -/

/-- C6 counterexample: an input containing two PEM blocks does not fail —
`pem.Decode` is called once and the remainder is ignored, so a second
CERTIFICATE block after the first is accepted, contradicting "input
containing other than exactly one block fails with InvalidFormat". -/
theorem claim_C6_two_blocks_cex :
    pemNumBlocks exTwoBlocks = 2
    ∧ (ValidateCert exParse exShaD 0 exTwoBlocks false).isOk = true := by
  decide

/-- C6 (amended): input with no decodable PEM block fails with
`ErrInvalidPEM`; input whose first block has a type other than
CERTIFICATE fails with the invalid-block-type error; a first CERTIFICATE
block whose DER payload does not parse as X.509 fails with the
invalid-certificate error; and the outcome depends only on the first PEM
block — any further blocks or trailing data are ignored, not rejected. -/
theorem claim_C6_validate_format (parse : List Nat → Option Cert)
    (sha : List Nat → String) (now : Nat) (data : Bytes) (force : Bool) :
    (pemDecode data = none →
      ValidateCert parse sha now data force = .error .invalidPEM)
    ∧ (∀ ty der rest, pemDecode data = some ((ty, der), rest) →
        ty ≠ "CERTIFICATE" →
        ValidateCert parse sha now data force = .error .invalidBlockType)
    ∧ (∀ der rest, pemDecode data = some (("CERTIFICATE", der), rest) →
        parse der = none →
        ValidateCert parse sha now data force = .error .invalidX509)
    ∧ (∀ data', pemFirstBlock data = pemFirstBlock data' →
        ValidateCert parse sha now data force
          = ValidateCert parse sha now data' force) := by
  refine ⟨?_, ?_, ?_, ?_⟩
  · intro h; simp [ValidateCert, h]
  · intro ty der rest h hty; simp [ValidateCert, h, hty]
  · intro der rest h hp; simp [ValidateCert, h, hp]
  · intro data' h
    unfold pemFirstBlock at h
    rcases hd : pemDecode data with _ | ⟨⟨ty, der⟩, rest⟩ <;>
      rcases hd' : pemDecode data' with _ | ⟨⟨ty', der'⟩, rest'⟩ <;>
        rw [hd, hd'] at h
    · simp [ValidateCert, hd, hd']
    · simp at h
    · simp at h
    · simp at h
      obtain ⟨h₁, h₂⟩ := h
      subst h₁
      subst h₂
      simp [ValidateCert, hd, hd']

/-- C6 witness: the three failure modes at concrete inputs, and
first-block-only dependence between a one-block and a two-block input. -/
theorem claim_C6_validate_format_witness :
    ValidateCert exParse exShaD 0 [.junk 5] false = .error .invalidPEM
    ∧ ValidateCert exParse exShaD 0 [.block "RSA PRIVATE KEY" [3]] false
        = .error .invalidBlockType
    ∧ ValidateCert exParseRej exShaD 0 [.block "CERTIFICATE" [9]] false
        = .error .invalidX509
    ∧ ValidateCert exParse exShaD 0 [.block "CERTIFICATE" [1]] false
        = ValidateCert exParse exShaD 0 exTwoBlocks false :=
  ⟨(claim_C6_validate_format exParse exShaD 0 [.junk 5] false).1 rfl,
   (claim_C6_validate_format exParse exShaD 0 [.block "RSA PRIVATE KEY" [3]] false).2.1
     "RSA PRIVATE KEY" [3] [] rfl (by decide),
   (claim_C6_validate_format exParseRej exShaD 0 [.block "CERTIFICATE" [9]] false).2.2.1
     [9] [] rfl (by decide),
   (claim_C6_validate_format exParse exShaD 0 [.block "CERTIFICATE" [1]] false).2.2.2
     exTwoBlocks rfl⟩

/-! ### C7 — expired certificates -/

/-- C7: for a structurally valid certificate whose `NotAfter` is before
the current time, validation with `allowExpired = false` fails with
`Expired`; `AddCert` with `allowExpired = false` consequently fails with
`Expired` leaving the state (user files, catalog, bundles) exactly
unchanged — the failure happens before any filesystem write; and
validation with `allowExpired = true` still succeeds structurally. -/
theorem claim_C7_expired_rejected (parse : List Nat → Option Cert)
    (shaD : List Nat → String) (sha : Bytes → String)
    (countCerts : Bytes → Nat) (now : Nat) (certData : Bytes)
    (name : String) (s : St) (der : List Nat) (rest : Bytes) (cert : Cert)
    (hinit : IsInitialized s = true) (hname : badName name = false)
    (hdec : pemDecode certData = some (("CERTIFICATE", der), rest))
    (hparse : parse der = some cert) (hexp : now > cert.notAfter) :
    ValidateCert parse shaD now certData false = .error .certExpired
    ∧ AddCert false parse shaD sha countCerts now (some certData) name false s
        = (.error .certExpired, s)
    ∧ (ValidateCert parse shaD now certData true).isOk = true := by
  have hval : ValidateCert parse shaD now certData false = .error .certExpired := by
    simp [ValidateCert, hdec, hparse, hexp]
  refine ⟨hval, ?_, ?_⟩
  · simp [AddCert, hinit, hname, hval]
  · simp [ValidateCert, hdec, hparse, Except.isOk, Except.toBool]

/-- C7 witness: an expired certificate (`NotAfter = 100`, now `101`) on a
concrete initialized store. -/
theorem claim_C7_expired_rejected_witness :
    ValidateCert exParse exShaD 101 exCertOld false = .error .certExpired
    ∧ AddCert false exParse exShaD exSha exCount 101 (some exCertOld) "corp" false exStOrphan
        = (.error .certExpired, exStOrphan)
    ∧ (ValidateCert exParse exShaD 101 exCertOld true).isOk = true :=
  claim_C7_expired_rejected exParse exShaD exSha exCount 101 exCertOld "corp"
    exStOrphan [1] [] ⟨[1], 100, "CN=T"⟩ rfl (by decide) rfl rfl (by decide)

/-! ### C8 — unsafe certificate names -/

/-- C8: on an initialized store, a certificate name containing `/`, `\`
or `..` makes `AddCert` fail with the invalid-name error and leave the
state exactly unchanged: the failure precedes every filesystem write, so
no file (not even a temp file) appears and the metadata is untouched. -/
theorem claim_C8_bad_name_rejected (cancelled : Bool)
    (parse : List Nat → Option Cert) (shaD : List Nat → String)
    (sha : Bytes → String) (countCerts : Bytes → Nat) (now : Nat)
    (certData? : Option Bytes) (name : String) (force : Bool) (s : St)
    (hinit : IsInitialized s = true)
    (hbad : strContains name "/" = true ∨ strContains name "\\" = true
            ∨ strContains name ".." = true) :
    AddCert cancelled parse shaD sha countCerts now certData? name force s
      = (.error .invalidName, s) := by
  have hb : badName name = true := by
    unfold badName
    rcases hbad with h | h | h <;> simp [h]
  simp [AddCert, hinit, hb]

/-- C8 witness: the name `"a/../b"` is rejected on a concrete store and
the state is returned unchanged. -/
theorem claim_C8_bad_name_rejected_witness :
    AddCert false exParse exShaD exSha exCount 0 (some exCertNew) "a/../b" false exStOrphan
      = (.error .invalidName, exStOrphan) :=
  claim_C8_bad_name_rejected false exParse exShaD exSha exCount 0
    (some exCertNew) "a/../b" false exStOrphan rfl (Or.inl (by decide))

/-! ### C1 — the locked metadata update contract -/

theorem UpdateMetadata_cancelled_run (fn : Mutator) (s : St) :
    UpdateMetadata true fn s = (.error .cancelled, s) := rfl

theorem UpdateMetadata_locked_run (fn : Mutator) (s : St)
    (hl : s.lockHeld = true) :
    UpdateMetadata false fn s = (.error .lockTimeout, s) := by
  simp [UpdateMetadata, lockAcquire, hl]

theorem UpdateMetadata_run (fn : Mutator) (s : St) (m : Metadata)
    (hl : s.lockHeld = false)
    (hr : readMetadata { s with lockHeld := true } = .ok m) :
    UpdateMetadata false fn s =
      (match fn m { s with lockHeld := true } with
       | (.error e, s') => (.error e, lockRelease s')
       | (.ok m', s') =>
         match writeMetadata s' m' with
         | .error e => (.error e, lockRelease s')
         | .ok s'' => (.ok (), lockRelease s'')) := by
  simp [UpdateMetadata, lockAcquire, hl, hr]

/-- C1: for every mutator (that, like every mutator in the code, does not
itself rewrite `metadata.json` or toggle the injected write-failure flag):
a cancelled context aborts before anything happens; a mutator error is
propagated without saving, leaving the metadata record on disk unchanged;
a mutator success saves exactly the mutated record; a save failure is
propagated with the on-disk record unchanged; and on every one of these
exit paths the file lock ends up released (`lockHeld` is back to its
initial value, `false` whenever the update ran at all). -/
theorem claim_C1_update_contract (cancelled : Bool) (fn : Mutator) (s : St)
    (hmeta : ∀ m st, ((fn m st).2).metadataFile = st.metadataFile)
    (hwf : ∀ m st, ((fn m st).2).metaWriteFails = st.metaWriteFails) :
    ((UpdateMetadata cancelled fn s).2.lockHeld = s.lockHeld)
    ∧ (cancelled = true → UpdateMetadata cancelled fn s = (.error .cancelled, s))
    ∧ (∀ m e s', cancelled = false → s.lockHeld = false →
        readMetadata { s with lockHeld := true } = .ok m →
        fn m { s with lockHeld := true } = (.error e, s') →
        (UpdateMetadata cancelled fn s).1 = .error e
        ∧ (UpdateMetadata cancelled fn s).2.metadataFile = s.metadataFile)
    ∧ (∀ m m' s', cancelled = false → s.lockHeld = false →
        s.metaWriteFails = false →
        readMetadata { s with lockHeld := true } = .ok m →
        fn m { s with lockHeld := true } = (.ok m', s') →
        (UpdateMetadata cancelled fn s).1 = .ok ()
        ∧ (UpdateMetadata cancelled fn s).2.metadataFile = some m')
    ∧ (∀ m m' s', cancelled = false → s.lockHeld = false →
        s.metaWriteFails = true →
        readMetadata { s with lockHeld := true } = .ok m →
        fn m { s with lockHeld := true } = (.ok m', s') →
        (UpdateMetadata cancelled fn s).1 = .error (.ioError "write metadata")
        ∧ (UpdateMetadata cancelled fn s).2.metadataFile = s.metadataFile) := by
  refine ⟨?_, ?_, ?_, ?_, ?_⟩
  · -- the lock is released on every exit path
    cases hc : cancelled
    · cases hl : s.lockHeld
      · rcases hr : readMetadata { s with lockHeld := true } with e | m
        · simp [UpdateMetadata, lockAcquire, hl, hr, lockRelease]
        · rw [UpdateMetadata_run fn s m hl hr]
          rcases hfm : fn m { s with lockHeld := true } with ⟨r, s'⟩
          cases r with
          | error e => simp [lockRelease, hl]
          | ok m' =>
            rcases hw : writeMetadata s' m' with e | s'' <;>
              simp [hw, lockRelease, hl]
      · rw [UpdateMetadata_locked_run fn s hl, hl]
    · rw [UpdateMetadata_cancelled_run]
  · intro hc; subst hc; exact UpdateMetadata_cancelled_run fn s
  · intro m e s' hc hl hr hfm
    subst hc
    rw [UpdateMetadata_run fn s m hl hr, hfm]
    refine ⟨rfl, ?_⟩
    have h := hmeta m { s with lockHeld := true }
    rw [hfm] at h
    exact h
  · intro m m' s' hc hl hw hr hfm
    subst hc
    have hwfs : s'.metaWriteFails = false := by
      have h := hwf m { s with lockHeld := true }
      rw [hfm] at h
      simpa [hw] using h
    rw [UpdateMetadata_run fn s m hl hr, hfm]
    simp [writeMetadata, hwfs, lockRelease]
  · intro m m' s' hc hl hw hr hfm
    subst hc
    have hwfs : s'.metaWriteFails = true := by
      have h := hwf m { s with lockHeld := true }
      rw [hfm] at h
      simpa [hw] using h
    rw [UpdateMetadata_run fn s m hl hr, hfm]
    have h := hmeta m { s with lockHeld := true }
    rw [hfm] at h
    have h' : s'.metadataFile = s.metadataFile := h
    simp [writeMetadata, hwfs, lockRelease, h']

/-- C1 witness: a successful increment-style mutator on a concrete store
saves the mutated record. -/
theorem claim_C1_update_contract_witness :
    (UpdateMetadata false incCounter exStOrphan).1 = .ok ()
    ∧ (UpdateMetadata false incCounter exStOrphan).2.metadataFile
        = some { NewMetadata with combinedBundle :=
                  { NewMetadata.combinedBundle with certCount := 1 } } :=
  (claim_C1_update_contract false incCounter exStOrphan
      (fun _ _ => rfl) (fun _ _ => rfl)).2.2.2.1 NewMetadata
    { NewMetadata with combinedBundle :=
        { NewMetadata.combinedBundle with certCount := 1 } }
    { exStOrphan with lockHeld := true } rfl rfl rfl rfl rfl

/-! ### C9 — serialized updates lose no increments -/

theorem UpdateMetadata_incCounter_run (s : St) (m : Metadata)
    (hm : s.metadataFile = some m) (hl : s.lockHeld = false)
    (hw : s.metaWriteFails = false) :
    ∃ m', UpdateMetadata false incCounter s
        = (.ok (), { s with metadataFile := some m', lockHeld := false })
      ∧ m'.combinedBundle.certCount = m.combinedBundle.certCount + 1 := by
  by_cases hv : m.version = currentSchemaVersion
  · have hr : readMetadata { s with lockHeld := true } = .ok m := by
      simp [readMetadata, hm, hv]
    rw [UpdateMetadata_run incCounter s m hl hr]
    refine ⟨{ m with combinedBundle :=
               { m.combinedBundle with certCount := m.combinedBundle.certCount + 1 } },
            ?_, rfl⟩
    simp [incCounter, writeMetadata, hw, lockRelease]
  · have hr : readMetadata { s with lockHeld := true } = .ok (migrateMetadata m) := by
      simp [readMetadata, hm, hv]
    rw [UpdateMetadata_run incCounter s (migrateMetadata m) hl hr]
    refine ⟨{ migrateMetadata m with combinedBundle :=
               { m.combinedBundle with certCount := m.combinedBundle.certCount + 1 } },
            ?_, rfl⟩
    simp [incCounter, migrateMetadata, writeMetadata, hw, lockRelease]

/-- C9: N `updateLocked` calls, each applying a successful
increment-style mutation, serialized in lock-acquisition order (each
call's read-modify-write is atomic because the file lock is held across
it, so a concurrent execution is their sequential composition in that
order), lose no update: the final persisted counter equals its initial
value plus N. -/
theorem claim_C9_no_lost_updates (n : Nat) (s : St) (m : Metadata)
    (hm : s.metadataFile = some m) (hl : s.lockHeld = false)
    (hw : s.metaWriteFails = false) :
    ∃ m', (runSerial (List.replicate n incCounter) s).metadataFile = some m'
      ∧ m'.combinedBundle.certCount = m.combinedBundle.certCount + n := by
  induction n generalizing s m with
  | zero => exact ⟨m, by simpa [runSerial] using hm, rfl⟩
  | succ k ih =>
    obtain ⟨m₁, hstep, hcount⟩ := UpdateMetadata_incCounter_run s m hm hl hw
    have hfold : runSerial (List.replicate (k + 1) incCounter) s
        = runSerial (List.replicate k incCounter)
            ((UpdateMetadata false incCounter s).2) := by
      simp [runSerial, List.replicate_succ]
    rw [hfold, hstep]
    obtain ⟨m', hm', hc'⟩ :=
      ih { s with metadataFile := some m₁, lockHeld := false } m₁ rfl rfl hw
    exact ⟨m', hm', by rw [hc', hcount]; omega⟩

/-- C9 witness: ten serialized increments on a fresh record leave the
counter at exactly ten. -/
theorem claim_C9_no_lost_updates_witness :
    ∃ m', (runSerial (List.replicate 10 incCounter) exStOrphan).metadataFile = some m'
      ∧ m'.combinedBundle.certCount = NewMetadata.combinedBundle.certCount + 10 :=
  claim_C9_no_lost_updates 10 exStOrphan NewMetadata rfl rfl rfl

/-! ### C10 — force re-initialize preserves user certificate files -/

theorem RebuildBundle_userDir (cancelled : Bool) (sha : Bytes → String)
    (countCerts : Bytes → Nat) (now : Nat) (m : Metadata) (s : St) :
    ((RebuildBundle cancelled sha countCerts now m s).2).userDir = s.userDir := by
  cases cancelled
  · cases hmz : s.mozillaFile
    · simp [RebuildBundle, hmz]
    · simp [RebuildBundle, hmz, readUserCerts_run]
  · simp [RebuildBundle]

theorem writeMetadata_userDir (s : St) (m : Metadata) (s' : St)
    (h : writeMetadata s m = .ok s') : s'.userDir = s.userDir := by
  unfold writeMetadata at h
  split at h
  · cases h
  · cases h
    rfl

/-- C10: `Init` never deletes anything under `certs/user/` — on every
path (success, already-initialized, cancellation, rebuild or write
failure) the user directory listing is exactly what it was; and a forced
re-initialization of an initialized store succeeds (absent injected write
failures), rewriting only the Mozilla bundle, the combined bundle and the
metadata record, with the new combined bundle containing the surviving
user `.pem` files' bytes after the embedded bundle's bytes. -/
theorem claim_C10_force_init_preserves_user_files (cancelled force : Bool)
    (sha : Bytes → String) (countCerts : Bytes → Nat) (now : Nat)
    (embedded : Bytes) (s : St) :
    ((Init cancelled force sha countCerts now embedded s).2).userDir = s.userDir
    ∧ (IsInitialized s = true → s.metaWriteFails = false →
        (Init false true sha countCerts now embedded s).1 = .ok ()
        ∧ (Init false true sha countCerts now embedded s).2.combinedFile
            = some (embedded ++ (pemFileData s).flatten)
        ∧ (Init false true sha countCerts now embedded s).2.mozillaFile
            = some embedded) := by
  constructor
  · unfold Init
    split
    · rfl
    · split
      · rfl
      · rcases hrb : RebuildBundle cancelled sha countCerts now
            ({ NewMetadata with mozillaBundle :=
                { generated := now, sha256 := sha embedded,
                  certCount := countCerts embedded, sources := [],
                  version := "", source := "embedded" } })
            { s with mozillaFile := some embedded } with ⟨r, s2⟩
        have h2 : s2.userDir = s.userDir := by
          have h := RebuildBundle_userDir cancelled sha countCerts now
            ({ NewMetadata with mozillaBundle :=
                { generated := now, sha256 := sha embedded,
                  certCount := countCerts embedded, sources := [],
                  version := "", source := "embedded" } })
            { s with mozillaFile := some embedded }
          rw [hrb] at h
          exact h
        cases r with
        | error e => simpa [hrb] using h2
        | ok m1 =>
          rcases hwm : writeMetadata s2 m1 with e | s3
          · simpa [hrb, hwm] using h2
          · have h3 := writeMetadata_userDir s2 m1 s3 hwm
            simp [hrb, hwm, h3, h2]
  · intro _ hwf
    simp only [Init, Bool.not_true, Bool.false_eq_true, false_and, if_false, reduceIte]
    rw [RebuildBundle_run sha countCerts now _ { s with mozillaFile := some embedded }
      embedded rfl]
    simp [writeMetadata, hwf, pemFileData]

/-- C10 witness: forced re-init on an initialized store with one orphan
user certificate file keeps the file and folds its bytes into the new
combined bundle. -/
theorem claim_C10_force_init_preserves_user_files_witness :
    ((Init false true exSha exCount 7 [.junk 9] exStOrphan).2).userDir
        = exStOrphan.userDir
    ∧ (Init false true exSha exCount 7 [.junk 9] exStOrphan).1 = .ok ()
    ∧ (Init false true exSha exCount 7 [.junk 9] exStOrphan).2.combinedFile
        = some ([.junk 9] ++ (pemFileData exStOrphan).flatten)
    ∧ (Init false true exSha exCount 7 [.junk 9] exStOrphan).2.mozillaFile
        = some [.junk 9] :=
  ⟨(claim_C10_force_init_preserves_user_files false true exSha exCount 7
      [.junk 9] exStOrphan).1,
   (claim_C10_force_init_preserves_user_files false true exSha exCount 7
      [.junk 9] exStOrphan).2 rfl rfl⟩

/-! ### C2 — AddCert rollback on metadata-update failure (corrected) -/

theorem removeUserFile_writeUserFile (f : String) (d : Bytes)
    (l : List DirEntry) :
    removeUserFile f (writeUserFile f d l) = removeUserFile f l := by
  induction l with
  | nil => simp [writeUserFile, removeUserFile]
  | cons e es ih =>
    cases e with
    | file n' d' =>
      by_cases h : n' = f
      · subst h
        simp [writeUserFile, removeUserFile]
      · simp [writeUserFile, removeUserFile, h, ih]
    | subdir n' => simp [writeUserFile, removeUserFile, ih]

theorem removeUserFile_absent (f : String) (l : List DirEntry)
    (h : hasUserFile f l = false) : removeUserFile f l = l := by
  induction l with
  | nil => rfl
  | cons e es ih =>
    cases e with
    | file n' d' =>
      simp [hasUserFile] at h
      simp [removeUserFile, h.1, ih (by simpa [hasUserFile] using h.2)]
    | subdir n' =>
      simp [hasUserFile] at h
      simp [removeUserFile, ih (by simpa [hasUserFile] using h)]

/-- C2 counterexample to "the on-disk state is exactly as it was before
the call, including the case where the name already existed": on a store
whose catalog lock is held elsewhere and whose `certs/user/` already holds
`corp.pem`, `AddCert "corp"` overwrites the file, the metadata update
fails, and the rollback `Remove` deletes the file outright — the previous
certificate's file is destroyed, so the final state differs from the
initial one. -/
theorem claim_C2_addcert_rollback_cex :
    (AddCert false exParse exShaD exSha exCount 50 (some exCertNew) "corp" false exStLocked).1
        = .error .lockTimeout
    ∧ (AddCert false exParse exShaD exSha exCount 50 (some exCertNew) "corp" false exStLocked).2.userDir
        = []
    ∧ exStLocked.userDir = [.file "corp.pem" exCertOld]
    ∧ (AddCert false exParse exShaD exSha exCount 50 (some exCertNew) "corp" false exStLocked).2
        ≠ exStLocked :=
  ⟨rfl, by decide, rfl, by decide⟩

/-- C2 (amended): when the locked metadata update inside `AddCert` fails
(here: lock acquisition timeout), the just-written certificate file is
removed, the error is propagated (the call never reports success), and
the metadata catalog is untouched; if no file of that name existed before
the call, the on-disk state is exactly as it was before; if the name
already existed, the previous certificate's file has been deleted by the
rollback (its bytes are not restored), leaving its catalog entry behind. -/
theorem claim_C2_addcert_rollback (parse : List Nat → Option Cert)
    (shaD : List Nat → String) (sha : Bytes → String)
    (countCerts : Bytes → Nat) (now : Nat) (certData : Bytes)
    (name : String) (force : Bool) (s : St) (cert : Cert) (cm : CertMetadata)
    (hinit : IsInitialized s = true) (hname : badName name = false)
    (hval : ValidateCert parse shaD now certData force = .ok (cert, cm))
    (hlock : s.lockHeld = true) :
    AddCert false parse shaD sha countCerts now (some certData) name force s
      = (.error .lockTimeout,
         { s with userDir := removeUserFile (name ++ ".pem") s.userDir })
    ∧ (hasUserFile (name ++ ".pem") s.userDir = false →
        AddCert false parse shaD sha countCerts now (some certData) name force s
          = (.error .lockTimeout, s)) := by
  have h1 : AddCert false parse shaD sha countCerts now (some certData) name force s
      = (.error .lockTimeout,
         { s with userDir := removeUserFile (name ++ ".pem") s.userDir }) := by
    simp only [AddCert, hinit, hname, hval, Bool.not_true, Bool.false_eq_true,
      if_false, reduceIte]
    rw [UpdateMetadata_locked_run _ _
      (hlock : ({ s with userDir := writeUserFile (name ++ ".pem") certData s.userDir }).lockHeld = true)]
    simp [removeUserFile_writeUserFile]
  refine ⟨h1, fun habs => ?_⟩
  rw [h1, removeUserFile_absent _ _ habs]

/-- C2 witness: with a fresh name (`fresh.pem` absent), a failing
metadata update rolls the store back to exactly its initial state. -/
theorem claim_C2_addcert_rollback_witness :
    AddCert false exParse exShaD exSha exCount 50 (some exCertNew) "fresh" false exStLocked
      = (.error .lockTimeout, exStLocked) :=
  (claim_C2_addcert_rollback exParse exShaD exSha exCount 50 exCertNew "fresh"
      false exStLocked ⟨[2], 100, "CN=T"⟩
      { subject := "CN=T", fingerprint := "sha256:" ++ exShaD [2], expires := 100 }
      rfl (by decide) rfl rfl).2 (by decide)

end Verifi
